import Mathlib

/-!
Verification development for the Wiki Runner repository.

The repository is a React/TypeScript app in which an autonomous agent plays the
"Wikipedia game": starting from a start page it repeatedly picks one outgoing
link (via one of four solvers) until it reaches a target page or a step budget
is exhausted.  This file shallowly embeds the parts of the code the claims are
about:

* the data model of `src/types.ts` (`WikiPage`, `GameStep`, `GameStatus`,
  `AIResponse`);
* the orchestrator step `executeMove` of `src/App.tsx` (lines 224-326),
  modelled as a pure state-transition function parameterised by the active
  solver, the page-fetching function, the wall-clock readings, and two flags
  locating a pause request relative to the step's suspension points: one for a
  pause observed by the `statusRef.current === PAUSED` check at App.tsx line
  308 (arrived during the solver call or visual delay), one for a pause
  arriving later, while the destination fetch was in flight (which
  `setStatus(PLAYING)` at line 320 overwrites);
* the local vector solver `getNextMove` of `services/vectorService.ts`
  (src/unnamed/part_001 lines 246-334), modelled as a pure function
  parameterised by the similarity score the embedding model would produce for
  a (target, candidate) pair of strings;
* the JSON-response post-processing of the three remote solvers (gemini,
  claude, openai), modelled as functions of the parse outcome; the claude one
  additionally of the `message.content` array, because its `catch` block
  re-dereferences `message.content[0].text` and therefore re-throws on an
  empty content array instead of falling back.

JavaScript strings are Lean `String`s; `toLowerCase`, `trim` and the
space-to-underscore `replace` are implemented over the character list so that
every definition evaluates by kernel reduction.  JS floating point similarity
scores are modelled as rationals.
-/

/-- `SolverType` from src/types.ts. -/
inductive SolverType
  | GEMINI
  | VECTORS
  | OPENAI
  | CLAUDE
deriving DecidableEq, Repr

/-- `WikiPage` from src/types.ts: a fetched node with its outgoing links. -/
structure WikiPage where
  title : String
  summary : String
  links : List String
  extract : Option String
deriving DecidableEq, Repr

/-- `GameStep` from src/types.ts: one committed hop record.  `timestamp` and
`duration` are the wall-clock readings (`Date.now()`, `performance.now()`
difference) taken by the orchestrator; they enter the model as inputs. -/
structure GameStep where
  pageTitle : String
  thought : String
  timestamp : Nat
  duration : Nat
  solver : SolverType
deriving DecidableEq, Repr

/-- `GameStatus` from src/types.ts. -/
inductive GameStatus
  | IDLE
  | STARTING
  | PLAYING
  | PAUSED
  | SUCCESS
  | FAILED
  | LOADING_STEP
deriving DecidableEq, Repr

/-- `AIResponse` from src/types.ts: what every solver returns. -/
structure AIResponse where
  reasoning : String
  selectedLink : String
deriving DecidableEq, Repr

/-- ASCII lower-casing, modelling JS `toLowerCase()` on the ASCII link titles
this app manipulates; implemented over the character list so it evaluates by
kernel reduction. -/
def lowerStr (s : String) : String :=
  String.mk (s.data.map Char.toLower)

/-- JS whitespace test for `trim()` (ASCII subset). -/
def isWsChar (c : Char) : Bool :=
  (c == ' ') || (c == '\t') || (c == '\n') || (c == '\r')

/-- JS `trim()`: drop leading and trailing whitespace. -/
def trimStr (s : String) : String :=
  String.mk (((s.data.dropWhile isWsChar).reverse.dropWhile isWsChar).reverse)

/-- JS `replace(/ /g, '_')`: every space becomes an underscore. -/
def underscoreSpaces (s : String) : String :=
  String.mk (s.data.map (fun c => if c == ' ' then '_' else c))

/-- `normalizeTitle` from src/App.tsx line 84:
`title.trim().replace(/ /g, '_').toLowerCase()`. -/
def normalizeTitle (title : String) : String :=
  lowerStr (underscoreSpaces (trimStr title))

/-- Modelled from the spec: the canonicalization of section 3 and the glossary
("trim whitespace, fold case, treat internal spaces and underscores as
equivalent"), stated from the spec words so it can be compared with what the
code actually does (the vector solver compares plain `toLowerCase()` forms). -/
def canonSpec (s : String) : String :=
  underscoreSpaces (lowerStr (trimStr s))

/-- JS `Array.from(new Set(links))` (src/unnamed/part_001 line 272): deduplicate
keeping the first occurrence of each string, preserving order.  `seen`
accumulates the strings already emitted. -/
def dedupFirstAux (seen : List String) : List String → List String
  | [] => []
  | x :: xs => if x ∈ seen then dedupFirstAux seen xs else x :: dedupFirstAux (x :: seen) xs

/-- Deduplication with first-seen order, as produced by the JS `Set`. -/
def dedupFirst (l : List String) : List String :=
  dedupFirstAux [] l

/-- The candidate filter of the vector solver, src/unnamed/part_001 lines
267-287: build the lower-cased visited set (history plus the current page),
deduplicate the outgoing links, keep the unvisited ones; if none remain fall
back to every deduplicated link that is not the current page itself (setting
`isBacktracking`); finally truncate to 200. -/
def filterCandidates (currentPage : WikiPage) (history : List String) : List String × Bool :=
  let visited := history.map lowerStr ++ [lowerStr currentPage.title]
  let allUniqueLinks := dedupFirst currentPage.links
  let unvisited := allUniqueLinks.filter (fun l => decide (lowerStr l ∉ visited))
  if unvisited.isEmpty then
    ((allUniqueLinks.filter (fun l => decide (lowerStr l ≠ lowerStr currentPage.title))).take 200,
      true)
  else
    (unvisited.take 200, false)

/-- The selection loop of src/unnamed/part_001 lines 304-320: scan the
candidates keeping the running best link and its score; a candidate replaces
the incumbent only when its score is strictly greater (`dot > maxScore`). -/
def selectBestAux (score : String → ℚ) : String → ℚ → List String → String × ℚ
  | b, m, [] => (b, m)
  | b, m, c :: rest =>
    if m < score c then selectBestAux score c (score c) rest
    else selectBestAux score b m rest

/-- The whole selection pass: `bestLink` starts as `candidates[0]`, `maxScore`
starts at `-2`, and the loop runs over the full candidate list. -/
def selectBestPair (score : String → ℚ) (c0 : String) (cs : List String) : String × ℚ :=
  selectBestAux score c0 (-2) (c0 :: cs)

/-- The link returned by the selection loop. -/
def selectBest (score : String → ℚ) (c0 : String) (cs : List String) : String :=
  (selectBestPair score c0 cs).1

/-- JS `currentPage.links[0] || "Main_Page"` (src/unnamed/part_001 line 290):
`||` takes the right operand when `links[0]` is undefined (empty list) or the
empty string (both falsy). -/
def jsFirstOrMain (links : List String) : String :=
  match links with
  | [] => "Main_Page"
  | l :: _ => if l = "" then "Main_Page" else l

/-- The local vector solver `getNextMove`, src/unnamed/part_001 lines 246-334.
`sim target candidate` stands for the dot product of the normalized embeddings
of `target` and `candidate` that the MiniLM model would produce (a pure
function of the two strings; JS floats become rationals, and the
`toFixed(3)` float formatting inside the reasoning text is abstracted to
`toString`).  The `loadModel` call is external I/O and is assumed to succeed;
its failure would reject the promise, which no claim is about. -/
def vectorGetNextMove (sim : String → String → ℚ) (currentPage : WikiPage)
    (targetPage : String) (history : List String) : AIResponse :=
  let targetLower := lowerStr targetPage
  match currentPage.links.find? (fun l => decide (lowerStr l = targetLower)) with
  | some directLink =>
    { selectedLink := directLink,
      reasoning := "Target identified! \"" ++ directLink ++ "\" is a direct match for the goal." }
  | none =>
    let fc := filterCandidates currentPage history
    match fc.1 with
    | [] =>
      { selectedLink := jsFirstOrMain currentPage.links,
        reasoning := "No valid links found." }
    | c0 :: rest =>
      let best := selectBestPair (sim targetPage) c0 rest
      let suffix :=
        if fc.2 then " (Note: All unique links were previously visited; forced to loop)."
        else " (Visited pages excluded to prevent loops)."
      { selectedLink := best.1,
        reasoning := "BERT Similarity Score: " ++ toString best.2 ++ ". \"" ++ best.1 ++
          "\" is semantically closest to \"" ++ targetPage ++ "\"." ++ suffix }

/-- The component state of `App` (src/App.tsx lines 125-141) restricted to the
fields `executeMove` reads or writes.  `maxSteps` is the step budget (fixed at
40 by the component, but carried as a field so the budget theorems quantify
over it). -/
structure AppState where
  currentWikiPage : Option WikiPage
  history : List GameStep
  status : GameStatus
  error : Option String
  highlightedLink : Option String
  targetPage : String
  maxSteps : Nat
  solver : SolverType
deriving DecidableEq, Repr

/-- One orchestrator step: `executeMove` from src/App.tsx lines 224-326,
as the state transformation it performs on the component state.

* `solverFn` is the active solver selected at lines 247-278
  (`getNextMove(currentWikiPage, targetPage, history.map(h => h.pageTitle), ...)`);
  a JS rejection/throw is `Except.error` with the error message, caught by the
  `catch` at lines 321-325.
* `fetchPage` is `wikiService.fetchPageData`; failures land in the same catch.
* `pausedMidStep` records whether `statusRef.current === GameStatus.PAUSED`
  held at the check on line 308, i.e. whether a pause request arrived while
  the solver call / visual delay was in flight; in that case the click handler
  has already set `status` to `PAUSED` and `executeMove` leaves it there.
* `pausedDuringFetch` records whether a pause request arrived later, while the
  destination fetch of the normal branch (line 316) was in flight — after the
  line-308 check had already read `PLAYING`.  The click handler sets `status`
  to `PAUSED`, but `setStatus(GameStatus.PLAYING)` at line 320 runs afterwards
  and overwrites it unconditionally, which is why this input does not occur in
  the body: the committed state is the same whether or not such a pause
  arrived.
* `timestamp` and `duration` are the `Date.now()` and `performance.now()`
  readings stored in the new `GameStep`.

The successive `setX` calls of the JS function are merged into record updates;
the final state is what the component holds after the async function settles. -/
def executeMove (solverFn : WikiPage → String → List String → Except String AIResponse)
    (fetchPage : String → Except String WikiPage) (pausedMidStep _pausedDuringFetch : Bool)
    (timestamp duration : Nat) (s : AppState) : AppState :=
  match s.currentWikiPage with
  | none => s
  | some page =>
    if s.status = GameStatus.PLAYING then
      let currentNorm := normalizeTitle page.title
      let targetNorm := normalizeTitle s.targetPage
      if currentNorm = targetNorm then
        { s with status := GameStatus.SUCCESS }
      else if s.maxSteps ≤ s.history.length then
        { s with status := GameStatus.FAILED,
                 error := some ("Maximum attempts reached without finding the target.") }
      else
        match solverFn page s.targetPage (s.history.map GameStep.pageTitle) with
        | Except.error msg =>
          { s with status := GameStatus.FAILED,
                   error := some ("Solver Error: " ++ msg) }
        | Except.ok move =>
          let s1 : AppState :=
            { s with status := GameStatus.LOADING_STEP,
                     highlightedLink := some move.selectedLink,
                     history := s.history ++
                       [{ pageTitle := page.title, thought := move.reasoning,
                          timestamp := timestamp, duration := duration,
                          solver := s.solver }] }
          if normalizeTitle move.selectedLink = targetNorm then
            match fetchPage move.selectedLink with
            | Except.error msg =>
              { s1 with status := GameStatus.FAILED,
                        error := some ("Solver Error: " ++ msg) }
            | Except.ok finalPage =>
              { s1 with currentWikiPage := some finalPage,
                        highlightedLink := none,
                        status := GameStatus.SUCCESS }
          else if pausedMidStep then
            match fetchPage move.selectedLink with
            | Except.error msg =>
              { s1 with status := GameStatus.FAILED,
                        error := some ("Solver Error: " ++ msg) }
            | Except.ok nextPage =>
              { s1 with currentWikiPage := some nextPage,
                        highlightedLink := none,
                        status := GameStatus.PAUSED }
          else
            match fetchPage move.selectedLink with
            | Except.error msg =>
              { s1 with status := GameStatus.FAILED,
                        error := some ("Solver Error: " ++ msg) }
            | Except.ok nextPage =>
              { s1 with currentWikiPage := some nextPage,
                        highlightedLink := none,
                        status := GameStatus.PLAYING }
    else s

/-- The automatic tick scheduler, src/App.tsx lines 328-333: a next
`executeMove` is scheduled exactly when the status is `PLAYING`. -/
def tickScheduled (st : GameStatus) : Bool :=
  st == GameStatus.PLAYING

/-- The fields of the JSON object a remote solver tries to read
(`data.reasoning`, `data.selectedLink`); `none` is a JS `undefined` field. -/
structure ParsedAI where
  reasoning : Option String
  selectedLink : Option String
deriving DecidableEq, Repr

/-- JS `v || d` for a possibly-undefined string `v`: `d` when `v` is
undefined or the empty string (both falsy). -/
def jsOrElse (v : Option String) (d : String) : String :=
  match v with
  | none => d
  | some s => if s = "" then d else s

/-- JS `links[0]`: undefined on an empty array, modelled as the empty
string (the claims that use it assume a non-empty link list). -/
def jsIndexZero (links : List String) : String :=
  match links with
  | [] => ""
  | l :: _ => l

/-- Response post-processing of the gemini solver, src/unnamed/part_001 lines
116-128.  `parsed` is the outcome of `JSON.parse(response.text || '{}')` plus
the two field reads: `none` when the parse (or a field access on `null`)
threw, landing in the `catch`; `some data` when it produced an object. -/
def geminiHandleResponse (currentLinks : List String) (parsed : Option ParsedAI) : AIResponse :=
  match parsed with
  | some data =>
    { reasoning := jsOrElse data.reasoning ("No reasoning provided."),
      selectedLink := jsOrElse data.selectedLink (jsIndexZero currentLinks) }
  | none =>
    { reasoning := "Failed to parse AI response. Picking first link.",
      selectedLink := jsIndexZero currentLinks }

/-- Response post-processing of the claude solver, src/unnamed/part_001 lines
179-205.  `contentBlocks` is the `message.content` array (each entry standing
for the block whose `.text` the code reads); `parsed` is the combined outcome
of the fence stripping, brace-substring extraction and `JSON.parse` run on the
first block (`none` when anything in that chain threw, including a missing
`.text`).  The handler is not total: when the content array is empty, the
`try` throws a `TypeError` on `(message.content[0] as any).text` at line 180,
and the `catch` dereferences `(message.content[0] as any).text` again at line
198 while building its `console.error` argument — so the same `TypeError` is
thrown out of the `catch` and propagates raw to the caller (`Except.error`).
With a non-empty content array the `catch` is safe and the handler falls back
to the first link like the gemini one. -/
def claudeHandleResponse (currentLinks : List String) (contentBlocks : List String)
    (parsed : Option ParsedAI) : Except String AIResponse :=
  match contentBlocks with
  | [] => Except.error ("TypeError: Cannot read properties of undefined (reading 'text')")
  | _ :: _ =>
    match parsed with
    | some data =>
      Except.ok
        { reasoning := jsOrElse data.reasoning ("No reasoning provided."),
          selectedLink := jsOrElse data.selectedLink (jsIndexZero currentLinks) }
    | none =>
      Except.ok
        { reasoning := "Failed to parse AI response. Picking first link.",
          selectedLink := jsIndexZero currentLinks }

/-- Response post-processing of the openai solver,
src/services/openaiService.ts lines 50-63: `JSON.parse` of the completion
content inside the `try`, with the same fallback `catch`. -/
def openaiHandleResponse (currentLinks : List String) (parsed : Option ParsedAI) : AIResponse :=
  match parsed with
  | some data =>
    { reasoning := jsOrElse data.reasoning ("No reasoning provided."),
      selectedLink := jsOrElse data.selectedLink (jsIndexZero currentLinks) }
  | none =>
    { reasoning := "Failed to parse AI response. Picking first link.",
      selectedLink := jsIndexZero currentLinks }

/-- Concrete fixture: a page "A" with the single outgoing link "B". -/
def pageAB : WikiPage :=
  WikiPage.mk ("A") ("") [("B")] none

/-- Concrete fixture: a fresh run on `pageAB` aiming at the unreachable
target "Z" with the default budget of 40. -/
def stateA : AppState :=
  AppState.mk (some pageAB) [] GameStatus.PLAYING none none ("Z") 40 SolverType.VECTORS

/-- Concrete fixture: a fetch that succeeds and returns a page with the
requested title and no links. -/
def fetchStub : String → Except String WikiPage :=
  fun t => Except.ok (WikiPage.mk t ("") [] none)

/-- Concrete fixture: a solver that always picks the given link. -/
def solverTo (link : String) : WikiPage → String → List String → Except String AIResponse :=
  fun _ _ _ => Except.ok (AIResponse.mk ("r") link)

/-- Concrete fixture: scores for the C6 witness. -/
def scoreW : String → ℚ :=
  fun c => if c = "B" then 1 else 0

/-- Concrete fixture for the budget witness: one step already taken with a
budget of one. -/
def stateBudget : AppState :=
  AppState.mk (some pageAB) [GameStep.mk ("S") ("t") 0 0 SolverType.VECTORS] GameStatus.PLAYING
    none none ("Z") 1 SolverType.VECTORS

/-- The link returned by the selection loop is the initial best or one of the
scanned candidates. -/
theorem selectBestAux_fst_mem (score : String → ℚ) (l : List String) (b : String) (m : ℚ) :
    (selectBestAux score b m l).1 = b ∨ (selectBestAux score b m l).1 ∈ l := by
  induction l generalizing b m with
  | nil => left; rfl
  | cons c rest ih =>
    simp only [selectBestAux]
    split
    · rcases ih c (score c) with h | h
      · right; simp [h]
      · right; simp [h]
    · rcases ih b m with h | h
      · left; exact h
      · right; simp [h]

/-- The running maximum carried by the selection loop dominates the initial
floor and the score of every scanned candidate. -/
theorem selectBestAux_le_snd (score : String → ℚ) (l : List String) (b : String) (m : ℚ) :
    m ≤ (selectBestAux score b m l).2 ∧ ∀ c ∈ l, score c ≤ (selectBestAux score b m l).2 := by
  induction l generalizing b m with
  | nil => exact ⟨le_refl m, by simp⟩
  | cons c rest ih =>
    simp only [selectBestAux]
    split
    · rename_i hlt
      obtain ⟨h1, h2⟩ := ih c (score c)
      refine ⟨le_of_lt (lt_of_lt_of_le hlt h1), ?_⟩
      intro x hx
      rcases List.mem_cons.mp hx with rfl | hx
      · exact h1
      · exact h2 x hx
    · rename_i hge
      obtain ⟨h1, h2⟩ := ih b m
      refine ⟨h1, ?_⟩
      intro x hx
      rcases List.mem_cons.mp hx with rfl | hx
      · exact le_trans (not_lt.mp hge) h1
      · exact h2 x hx

/-- If the running maximum equals the score of the incumbent, the loop keeps
that equality: the final maximum is the score of the returned link. -/
theorem selectBestAux_consistent (score : String → ℚ) (l : List String) (b : String) :
    (selectBestAux score b (score b) l).2 = score (selectBestAux score b (score b) l).1 := by
  induction l generalizing b with
  | nil => rfl
  | cons c rest ih =>
    simp only [selectBestAux]
    split
    · exact ih c
    · exact ih b

/-- First-occurrence property of the scan: the returned link is either the
incumbent, or it splits the scanned list so that everything before it scores
strictly below it (and it strictly beats the entry floor). -/
theorem selectBestAux_first (score : String → ℚ) (l : List String) (b : String) (m : ℚ) :
    (selectBestAux score b m l).1 = b ∨
      ∃ l₁ l₂, l = l₁ ++ (selectBestAux score b m l).1 :: l₂ ∧
        m < score (selectBestAux score b m l).1 ∧
        ∀ x ∈ l₁, score x < score (selectBestAux score b m l).1 := by
  induction l generalizing b m with
  | nil => left; rfl
  | cons c rest ih =>
    simp only [selectBestAux]
    split
    · rename_i hlt
      rcases ih c (score c) with h | ⟨l₁, l₂, heq, hgt, hall⟩
      · right
        refine ⟨[], rest, ?_, ?_, ?_⟩
        · simp [h]
        · rw [h]; exact hlt
        · simp
      · right
        have hsplit : c :: rest = (c :: l₁) ++ (selectBestAux score c (score c) rest).1 :: l₂ := by
          conv_lhs => rw [heq]
          rw [List.cons_append]
        refine ⟨c :: l₁, l₂, hsplit, lt_trans hlt hgt, ?_⟩
        intro x hx
        rcases List.mem_cons.mp hx with rfl | hx
        · exact hgt
        · exact hall x hx
    · rename_i hge
      rcases ih b m with h | ⟨l₁, l₂, heq, hgt, hall⟩
      · left; exact h
      · right
        have hsplit : c :: rest = (c :: l₁) ++ (selectBestAux score b m rest).1 :: l₂ := by
          conv_lhs => rw [heq]
          rw [List.cons_append]
        refine ⟨c :: l₁, l₂, hsplit, hgt, ?_⟩
        intro x hx
        rcases List.mem_cons.mp hx with rfl | hx
        · exact lt_of_le_of_lt (not_lt.mp hge) hgt
        · exact hall x hx

/-- C6: for every non-empty candidate list and every assignment of
cosine-similarity scores (values in [-1, 1]), the selection loop returns a
candidate whose score is greatest, and among equal-scoring candidates the one
occurring first in candidate order: every candidate strictly before the
returned one scores strictly below it. -/
theorem selectBest_argmax_stable (score : String → ℚ) (c0 : String) (cs : List String)
    (hbound : ∀ c ∈ c0 :: cs, -1 ≤ score c ∧ score c ≤ 1) :
    (∀ c ∈ c0 :: cs, score c ≤ score (selectBest score c0 cs)) ∧
      ∃ l₁ l₂, c0 :: cs = l₁ ++ selectBest score c0 cs :: l₂ ∧
        ∀ x ∈ l₁, score x < score (selectBest score c0 cs) := by
  have hc0 : (-2 : ℚ) < score c0 :=
    lt_of_lt_of_le (by norm_num) (hbound c0 (List.mem_cons_self c0 cs)).1
  have hstep : selectBestPair score c0 cs = selectBestAux score c0 (score c0) cs := by
    simp only [selectBestPair, selectBestAux]
    rw [if_pos hc0]
  have hcons := selectBestAux_consistent score cs c0
  obtain ⟨h1, h2⟩ := selectBestAux_le_snd score cs c0 (score c0)
  constructor
  · intro c hc
    have hr : score c0 ≤ score (selectBest score c0 cs) := by
      have := h1
      rw [hcons] at this
      simpa [selectBest, hstep] using this
    rcases List.mem_cons.mp hc with rfl | hc
    · exact hr
    · have := h2 c hc
      rw [hcons] at this
      simpa [selectBest, hstep] using this
  · rcases selectBestAux_first score cs c0 (score c0) with h | ⟨l₁, l₂, heq, hgt, hall⟩
    · refine ⟨[], cs, ?_, by simp⟩
      simp [selectBest, hstep, h]
    · refine ⟨c0 :: l₁, l₂, ?_, ?_⟩
      · simp only [selectBest, hstep]
        simpa using heq
      · intro x hx
        rcases List.mem_cons.mp hx with rfl | hx
        · simpa [selectBest, hstep] using hgt
        · simpa [selectBest, hstep] using hall x hx

/-- C6 witness: on candidates ["A", "B", "C"] with scores 0, 1, 0 the loop
returns "B", the unique maximizer, preceded only by the lower-scoring "A". -/
theorem selectBest_argmax_stable_witness :
    (∀ c ∈ ("A") :: [("B"), ("C")], -1 ≤ scoreW c ∧ scoreW c ≤ 1) ∧
      ((∀ c ∈ ("A") :: [("B"), ("C")], scoreW c ≤ scoreW (selectBest scoreW ("A") [("B"), ("C")])) ∧
        ∃ l₁ l₂, ("A") :: [("B"), ("C")] = l₁ ++ selectBest scoreW ("A") [("B"), ("C")] :: l₂ ∧
          ∀ x ∈ l₁, scoreW x < scoreW (selectBest scoreW ("A") [("B"), ("C")])) :=
  ⟨by decide, selectBest_argmax_stable scoreW ("A") [("B"), ("C")] (by decide)⟩

/-- C10: for every non-empty candidate list and every score assignment — in
particular assignments on which the strict comparison never fires, the
rational stand-in for NaN-poisoned dot products — the selection loop returns a
member of the candidate list, because it is initialized with the first
candidate and the -2 floor. -/
theorem selectBest_mem_candidates (score : String → ℚ) (c0 : String) (cs : List String) :
    selectBest score c0 cs ∈ c0 :: cs := by
  rcases selectBestAux_fst_mem score (c0 :: cs) c0 (-2) with h | h
  · simp [selectBest, selectBestPair, h]
  · simpa [selectBest, selectBestPair] using h

/-- C3 counterexample: the claim's canonicalization (trim, fold case, spaces
and underscores equivalent) is not what the filter compares.  With visited
entry "Apollo 11" and outgoing link "Apollo_11" — spec-canonically the same
page — the filter output still contains "Apollo_11" although
`usedFallback = false`, because the code only compares `toLowerCase()` forms. -/
theorem filterCandidates_spec_canonical_cex :
    filterCandidates (WikiPage.mk ("X") ("") [("Apollo_11")] none) [("Apollo 11")] =
        ([("Apollo_11")], false) ∧
      canonSpec ("Apollo_11") = canonSpec ("Apollo 11") := by decide

/-- C3 (amended): when `usedFallback` is false, the candidate filter's output
contains no link whose lower-cased form (the code's only canonicalization: JS
`toLowerCase()`, with no trimming and no space/underscore folding) equals the
lower-cased form of any entry of the visited set, i.e. of the current node or
any history entry. -/
theorem filterCandidates_no_visited (page : WikiPage) (history : List String)
    (cands : List String) (h : filterCandidates page history = (cands, false)) :
    ∀ l ∈ cands, ∀ v ∈ page.title :: history, lowerStr l ≠ lowerStr v := by
  intro l hl v hv heq
  simp only [filterCandidates] at h
  split at h
  · exact absurd (congrArg Prod.snd h) (by simp)
  · have hc : cands =
        ((dedupFirst page.links).filter
          (fun x => decide (lowerStr x ∉ history.map lowerStr ++ [lowerStr page.title]))).take
          200 :=
      (congrArg Prod.fst h).symm
    rw [hc] at hl
    have hl2 := List.take_subset 200 _ hl
    have hnot := of_decide_eq_true (List.mem_filter.mp hl2).2
    apply hnot
    rw [heq]
    rcases List.mem_cons.mp hv with rfl | hv
    · exact List.mem_append_right _ (List.mem_singleton.mpr rfl)
    · exact List.mem_append_left _ (List.mem_map_of_mem lowerStr hv)

/-- C3 witness: a run of the amended theorem on a concrete page. -/
theorem filterCandidates_no_visited_witness :
    filterCandidates (WikiPage.mk ("X") ("") [("B")] none) [("A")] = ([("B")], false) ∧
      ∀ l ∈ [("B")], ∀ v ∈ ("X") :: [("A")], lowerStr l ≠ lowerStr v :=
  ⟨by decide,
    filterCandidates_no_visited (WikiPage.mk ("X") ("") [("B")] none) [("A")] [("B")] (by decide)⟩

/-- C2 counterexample: on a node with zero outgoing links the local solver does
not signal any error — it silently substitutes the sentinel page "Main_Page"
(the run then continues by fetching it). -/
theorem vector_zero_links_cex :
    vectorGetNextMove (fun _ _ => 0) (WikiPage.mk ("A") ("") [] none) ("Z") [] =
      { reasoning := "No valid links found.", selectedLink := "Main_Page" } := by decide

/-- C2 (amended): whenever the candidate list is empty after deduplication,
visited-filtering, fallback and truncation (and the exact-match short-circuit
did not fire), the local solver returns the page's first raw outgoing link —
or the sentinel "Main_Page" when there is none — with the reasoning "No valid
links found.", rather than signalling a fatal error. -/
theorem vector_empty_candidates_fallback (sim : String → String → ℚ) (page : WikiPage)
    (target : String) (history : List String)
    (hdirect : page.links.find? (fun l => decide (lowerStr l = lowerStr target)) = none)
    (hempty : (filterCandidates page history).1 = []) :
    vectorGetNextMove sim page target history =
      { reasoning := "No valid links found.", selectedLink := jsFirstOrMain page.links } := by
  simp only [vectorGetNextMove]
  rw [hdirect, hempty]

/-- C2 witness: a page whose only link is itself — the filter output is empty
and the raw first link is returned. -/
theorem vector_empty_candidates_fallback_witness :
    (WikiPage.mk ("A") ("") [("A")] none).links.find?
        (fun l => decide (lowerStr l = lowerStr ("Z"))) = none ∧
      (filterCandidates (WikiPage.mk ("A") ("") [("A")] none) []).1 = [] ∧
      vectorGetNextMove (fun _ _ => 0) (WikiPage.mk ("A") ("") [("A")] none) ("Z") [] =
        { reasoning := "No valid links found.",
          selectedLink := jsFirstOrMain (WikiPage.mk ("A") ("") [("A")] none).links } :=
  ⟨by decide, by decide,
    vector_empty_candidates_fallback (fun _ _ => 0) _ ("Z") [] (by decide) (by decide)⟩

/-- C5 counterexample: the target "apollo_11" is spec-canonically equal to the
outgoing link "Apollo 11", yet the short-circuit does not fire (it compares
`toLowerCase()` forms only): the solver runs the embedding comparison and
returns the other candidate "B". -/
theorem vector_shortcircuit_canonical_cex :
    canonSpec ("apollo_11") = canonSpec ("Apollo 11") ∧
      ("Apollo 11") ∈ (WikiPage.mk ("X") ("") [("B"), ("Apollo 11")] none).links ∧
      (vectorGetNextMove (fun _ c => if c = "B" then 1 else 0)
          (WikiPage.mk ("X") ("") [("B"), ("Apollo 11")] none) ("apollo_11") []).selectedLink =
        ("B") := by decide

/-- C5 (amended): the exact-match short-circuit fires on `toLowerCase()`
equality (not the spec canonicalization): when some outgoing link lower-cases
to the lower-cased target, the first such link is returned immediately with
the sentinel rationale, and no embedding computation is performed — the result
is the same for every similarity function. -/
theorem vector_direct_match_shortcircuit (sim sim2 : String → String → ℚ) (page : WikiPage)
    (target : String) (history : List String) (l : String)
    (hfind : page.links.find? (fun x => decide (lowerStr x = lowerStr target)) = some l) :
    vectorGetNextMove sim page target history =
        { reasoning := "Target identified! \"" ++ l ++ "\" is a direct match for the goal.",
          selectedLink := l } ∧
      vectorGetNextMove sim page target history = vectorGetNextMove sim2 page target history := by
  constructor
  · simp only [vectorGetNextMove]
    rw [hfind]
  · simp only [vectorGetNextMove]
    rw [hfind]

/-- C5 witness: target "cheese" matches link "Cheese" case-insensitively; two
different similarity functions give the same immediate answer. -/
theorem vector_direct_match_shortcircuit_witness :
    (WikiPage.mk ("A") ("") [("Cheese")] none).links.find?
        (fun x => decide (lowerStr x = lowerStr ("cheese"))) = some ("Cheese") ∧
      (vectorGetNextMove (fun _ _ => 0) (WikiPage.mk ("A") ("") [("Cheese")] none) ("cheese") [] =
          { reasoning := "Target identified! \"" ++ ("Cheese") ++
              "\" is a direct match for the goal.",
            selectedLink := ("Cheese") } ∧
        vectorGetNextMove (fun _ _ => 0) (WikiPage.mk ("A") ("") [("Cheese")] none) ("cheese") [] =
          vectorGetNextMove (fun _ _ => 1) (WikiPage.mk ("A") ("") [("Cheese")] none) ("cheese") []) :=
  ⟨by decide,
    vector_direct_match_shortcircuit (fun _ _ => 0) (fun _ _ => 1) _ ("cheese") [] ("Cheese")
      (by decide)⟩

/-- Shared shape of a committed hop: under the hypotheses that pick the
normal stepping branch (run in progress, current node not the target, budget
not yet reached, solver and fetch succeed, chosen link not the target),
`executeMove` appends the Step recording the departed page, switches to the
fetched destination, clears the highlight, and ends `PAUSED` or `PLAYING`
according to whether a pause arrived mid-step. -/
theorem executeMove_commit (solverFn : WikiPage → String → List String → Except String AIResponse)
    (fetchPage : String → Except String WikiPage) (p pf : Bool) (t d : Nat) (s : AppState)
    (page : WikiPage) (move : AIResponse) (nextPage : WikiPage)
    (hpage : s.currentWikiPage = some page)
    (hstatus : s.status = GameStatus.PLAYING)
    (hnt : ¬ normalizeTitle page.title = normalizeTitle s.targetPage)
    (hb : s.history.length < s.maxSteps)
    (hfn : solverFn page s.targetPage (s.history.map GameStep.pageTitle) = Except.ok move)
    (hlnt : ¬ normalizeTitle move.selectedLink = normalizeTitle s.targetPage)
    (hfetch : fetchPage move.selectedLink = Except.ok nextPage) :
    executeMove solverFn fetchPage p pf t d s =
      { s with currentWikiPage := some nextPage,
               highlightedLink := none,
               history := s.history ++
                 [{ pageTitle := page.title, thought := move.reasoning,
                    timestamp := t, duration := d, solver := s.solver }],
               status := if p then GameStatus.PAUSED else GameStatus.PLAYING } := by
  have hnb : ¬ s.maxSteps ≤ s.history.length := by omega
  simp only [executeMove, hpage]
  rw [if_pos hstatus, if_neg hnt, if_neg hnb, hfn]
  simp only
  rw [if_neg hlnt]
  cases p with
  | false =>
    simp only [Bool.false_eq_true, if_false]
    rw [hfetch]
  | true =>
    simp only [if_true]
    rw [hfetch]

/-- C1 counterexample: the solver returns "Q", which is not among the current
page's outgoing links (["B"]), yet the orchestrator appends the Step and
continues PLAYING — no membership verification, no FAILED transition. -/
theorem executeMove_invalid_link_cex :
    (("Q") ∉ pageAB.links) ∧
      (executeMove (solverTo ("Q")) fetchStub false false 0 0 stateA).history.length = 1 ∧
      (executeMove (solverTo ("Q")) fetchStub false false 0 0 stateA).status =
        GameStatus.PLAYING := by decide

/-- C1 (amended): the orchestrator performs no membership check on the
solver-returned link.  Even when the chosen link is absent from the current
node's outgoing-link list, the Step is committed and the run continues as
PLAYING with the fetched page as current (it fails only if the fetch itself
throws, not because of the missing edge). -/
theorem executeMove_commits_without_membership_check
    (solverFn : WikiPage → String → List String → Except String AIResponse)
    (fetchPage : String → Except String WikiPage) (t d : Nat) (s : AppState)
    (page : WikiPage) (move : AIResponse) (nextPage : WikiPage)
    (hpage : s.currentWikiPage = some page)
    (hstatus : s.status = GameStatus.PLAYING)
    (hnt : ¬ normalizeTitle page.title = normalizeTitle s.targetPage)
    (hb : s.history.length < s.maxSteps)
    (hfn : solverFn page s.targetPage (s.history.map GameStep.pageTitle) = Except.ok move)
    (_hnotmem : move.selectedLink ∉ page.links)
    (hlnt : ¬ normalizeTitle move.selectedLink = normalizeTitle s.targetPage)
    (hfetch : fetchPage move.selectedLink = Except.ok nextPage) :
    (executeMove solverFn fetchPage false false t d s).history =
        s.history ++
          [{ pageTitle := page.title, thought := move.reasoning,
             timestamp := t, duration := d, solver := s.solver }] ∧
      (executeMove solverFn fetchPage false false t d s).status = GameStatus.PLAYING := by
  rw [executeMove_commit solverFn fetchPage false false t d s page move nextPage hpage hstatus hnt hb
    hfn hlnt hfetch]
  exact ⟨rfl, rfl⟩

/-- C1 witness: the amended theorem run on the concrete invalid-link step. -/
theorem executeMove_commits_without_membership_check_witness :
    (stateA.currentWikiPage = some pageAB ∧ (("Q") ∉ pageAB.links)) ∧
      ((executeMove (solverTo ("Q")) fetchStub false false 0 0 stateA).history =
          stateA.history ++
            [{ pageTitle := pageAB.title, thought := (AIResponse.mk ("r") ("Q")).reasoning,
               timestamp := 0, duration := 0, solver := stateA.solver }] ∧
        (executeMove (solverTo ("Q")) fetchStub false false 0 0 stateA).status = GameStatus.PLAYING) :=
  ⟨⟨rfl, by decide⟩,
    executeMove_commits_without_membership_check (solverTo ("Q")) fetchStub 0 0 stateA pageAB
      (AIResponse.mk ("r") ("Q"))
      (WikiPage.mk ("Q") ("") [] none) rfl rfl (by decide) (by decide) rfl (by decide)
      (by decide) rfl⟩

/-- C4 counterexample: after the hop from "A" via link "B" commits, the last
Step references "A" (the departed page) while the current node is "B" — the
last Step does not equal the run's current node. -/
theorem executeMove_last_step_cex :
    ((executeMove (solverTo ("B")) fetchStub false false 0 0 stateA).history.getLast?).map
        GameStep.pageTitle = some ("A") ∧
      ((executeMove (solverTo ("B")) fetchStub false false 0 0 stateA).currentWikiPage).map
        WikiPage.title = some ("B") ∧
      (("A") : String) ≠ ("B") := by decide

/-- C4 (amended): once a step completes, the last Step in the history
references the node the hop departed from — the page that was current when the
solver ran — while the run's current node is the freshly fetched destination
(so the two coincide only when the hop is a self-loop). -/
theorem executeMove_last_step_is_origin
    (solverFn : WikiPage → String → List String → Except String AIResponse)
    (fetchPage : String → Except String WikiPage) (t d : Nat) (s : AppState)
    (page : WikiPage) (move : AIResponse) (nextPage : WikiPage)
    (hpage : s.currentWikiPage = some page)
    (hstatus : s.status = GameStatus.PLAYING)
    (hnt : ¬ normalizeTitle page.title = normalizeTitle s.targetPage)
    (hb : s.history.length < s.maxSteps)
    (hfn : solverFn page s.targetPage (s.history.map GameStep.pageTitle) = Except.ok move)
    (hlnt : ¬ normalizeTitle move.selectedLink = normalizeTitle s.targetPage)
    (hfetch : fetchPage move.selectedLink = Except.ok nextPage) :
    (executeMove solverFn fetchPage false false t d s).history.getLast? =
        some { pageTitle := page.title, thought := move.reasoning,
               timestamp := t, duration := d, solver := s.solver } ∧
      (executeMove solverFn fetchPage false false t d s).currentWikiPage = some nextPage := by
  rw [executeMove_commit solverFn fetchPage false false t d s page move nextPage hpage hstatus hnt hb
    hfn hlnt hfetch]
  exact ⟨List.getLast?_concat _, rfl⟩

/-- C4 witness: the amended theorem run on the concrete hop from "A" to "B". -/
theorem executeMove_last_step_is_origin_witness :
    stateA.currentWikiPage = some pageAB ∧
      ((executeMove (solverTo ("B")) fetchStub false false 0 0 stateA).history.getLast? =
          some { pageTitle := pageAB.title, thought := (AIResponse.mk ("r") ("B")).reasoning,
                 timestamp := 0, duration := 0, solver := stateA.solver } ∧
        (executeMove (solverTo ("B")) fetchStub false false 0 0 stateA).currentWikiPage =
          some (WikiPage.mk ("B") ("") [] none)) :=
  ⟨rfl,
    executeMove_last_step_is_origin (solverTo ("B")) fetchStub 0 0 stateA pageAB
      (AIResponse.mk ("r") ("B")) (WikiPage.mk ("B") ("") [] none) rfl rfl (by decide)
      (by decide) rfl (by decide) rfl⟩

/-- C9 counterexample: a pause request arriving while the destination fetch is
in flight (second flag true; the line-308 check had already read PLAYING) does
not leave the run Paused: the hop commits, but `setStatus(GameStatus.PLAYING)`
at App.tsx line 320 overwrites the pause, the final status is PLAYING, and the
next automatic tick is scheduled — contradicting the claim for exactly the
fetch-in-flight pauses it also covers. -/
theorem executeMove_pause_during_fetch_cex :
    (executeMove (solverTo ("B")) fetchStub false true 0 0 stateA).history.length = 1 ∧
      ((executeMove (solverTo ("B")) fetchStub false true 0 0 stateA).currentWikiPage).map
        WikiPage.title = some ("B") ∧
      (executeMove (solverTo ("B")) fetchStub false true 0 0 stateA).status =
        GameStatus.PLAYING ∧
      tickScheduled (executeMove (solverTo ("B")) fetchStub false true 0 0 stateA).status =
        true := by decide

/-- C9 (amended): a pause request never aborts the in-flight step — the Step
is appended and the destination becomes the current node in either case — but
the run only remains Paused (with no next tick scheduled) when the pause was
observed by the `statusRef` check at App.tsx line 308, i.e. arrived while the
solver call or the visual delay was in flight.  A pause arriving later, while
the destination fetch is in flight, is clobbered by `setStatus(PLAYING)` at
line 320: the run resumes as PLAYING and the next automatic tick is
scheduled. -/
theorem executeMove_pause_commits
    (solverFn : WikiPage → String → List String → Except String AIResponse)
    (fetchPage : String → Except String WikiPage) (t d : Nat) (s : AppState)
    (page : WikiPage) (move : AIResponse) (nextPage : WikiPage)
    (hpage : s.currentWikiPage = some page)
    (hstatus : s.status = GameStatus.PLAYING)
    (hnt : ¬ normalizeTitle page.title = normalizeTitle s.targetPage)
    (hb : s.history.length < s.maxSteps)
    (hfn : solverFn page s.targetPage (s.history.map GameStep.pageTitle) = Except.ok move)
    (hlnt : ¬ normalizeTitle move.selectedLink = normalizeTitle s.targetPage)
    (hfetch : fetchPage move.selectedLink = Except.ok nextPage) :
    ((executeMove solverFn fetchPage true false t d s).history =
        s.history ++
          [{ pageTitle := page.title, thought := move.reasoning,
             timestamp := t, duration := d, solver := s.solver }] ∧
      (executeMove solverFn fetchPage true false t d s).currentWikiPage = some nextPage ∧
      (executeMove solverFn fetchPage true false t d s).status = GameStatus.PAUSED ∧
      tickScheduled (executeMove solverFn fetchPage true false t d s).status = false) ∧
    ((executeMove solverFn fetchPage false true t d s).history =
        s.history ++
          [{ pageTitle := page.title, thought := move.reasoning,
             timestamp := t, duration := d, solver := s.solver }] ∧
      (executeMove solverFn fetchPage false true t d s).currentWikiPage = some nextPage ∧
      (executeMove solverFn fetchPage false true t d s).status = GameStatus.PLAYING ∧
      tickScheduled (executeMove solverFn fetchPage false true t d s).status = true) := by
  constructor
  · rw [executeMove_commit solverFn fetchPage true false t d s page move nextPage hpage hstatus
      hnt hb hfn hlnt hfetch]
    exact ⟨rfl, rfl, rfl, rfl⟩
  · rw [executeMove_commit solverFn fetchPage false true t d s page move nextPage hpage hstatus
      hnt hb hfn hlnt hfetch]
    exact ⟨rfl, rfl, rfl, rfl⟩

/-- C9 witness: the concrete hop from "A" to "B", once with the pause observed
at the line-308 check (committed, destination current, still paused, no tick)
and once with the pause arriving during the destination fetch (committed, but
resumed PLAYING with a tick scheduled). -/
theorem executeMove_pause_commits_witness :
    stateA.currentWikiPage = some pageAB ∧
      (((executeMove (solverTo ("B")) fetchStub true false 0 0 stateA).history =
          stateA.history ++
            [{ pageTitle := pageAB.title, thought := (AIResponse.mk ("r") ("B")).reasoning,
               timestamp := 0, duration := 0, solver := stateA.solver }] ∧
        (executeMove (solverTo ("B")) fetchStub true false 0 0 stateA).currentWikiPage =
          some (WikiPage.mk ("B") ("") [] none) ∧
        (executeMove (solverTo ("B")) fetchStub true false 0 0 stateA).status =
          GameStatus.PAUSED ∧
        tickScheduled (executeMove (solverTo ("B")) fetchStub true false 0 0 stateA).status =
          false) ∧
      ((executeMove (solverTo ("B")) fetchStub false true 0 0 stateA).history =
          stateA.history ++
            [{ pageTitle := pageAB.title, thought := (AIResponse.mk ("r") ("B")).reasoning,
               timestamp := 0, duration := 0, solver := stateA.solver }] ∧
        (executeMove (solverTo ("B")) fetchStub false true 0 0 stateA).currentWikiPage =
          some (WikiPage.mk ("B") ("") [] none) ∧
        (executeMove (solverTo ("B")) fetchStub false true 0 0 stateA).status =
          GameStatus.PLAYING ∧
        tickScheduled (executeMove (solverTo ("B")) fetchStub false true 0 0 stateA).status =
          true)) :=
  ⟨rfl,
    executeMove_pause_commits (solverTo ("B")) fetchStub 0 0 stateA pageAB
      (AIResponse.mk ("r") ("B")) (WikiPage.mk ("B") ("") [] none) rfl rfl (by decide)
      (by decide) rfl (by decide) rfl⟩

/-- Case analysis of what `executeMove` does to the history: it either leaves
it unchanged, or — only in the branch guarded by the budget check — appends
exactly one Step. -/
theorem executeMove_history_shape
    (solverFn : WikiPage → String → List String → Except String AIResponse)
    (fetchPage : String → Except String WikiPage) (p pf : Bool) (t d : Nat) (s : AppState) :
    (executeMove solverFn fetchPage p pf t d s).history = s.history ∨
      (s.history.length < s.maxSteps ∧
        ∃ g, (executeMove solverFn fetchPage p pf t d s).history = s.history ++ [g]) := by
  cases hpage : s.currentWikiPage with
  | none => left; simp [executeMove, hpage]
  | some page =>
    by_cases hst : s.status = GameStatus.PLAYING
    · by_cases hct : normalizeTitle page.title = normalizeTitle s.targetPage
      · left; simp [executeMove, hpage, hst, hct]
      · by_cases hb : s.maxSteps ≤ s.history.length
        · left; simp [executeMove, hpage, hst, hct, hb]
        · cases hfn : solverFn page s.targetPage (s.history.map GameStep.pageTitle) with
          | error msg => left; simp [executeMove, hpage, hst, hct, hb, hfn]
          | ok move =>
            right
            refine ⟨by omega, ?_⟩
            refine ⟨GameStep.mk page.title move.reasoning t d s.solver, ?_⟩
            by_cases hlt : normalizeTitle move.selectedLink = normalizeTitle s.targetPage
            · cases hfetch : fetchPage move.selectedLink with
              | error msg => simp [executeMove, hpage, hst, hct, hb, hfn, hlt, hfetch]
              | ok np => simp [executeMove, hpage, hst, hct, hb, hfn, hlt, hfetch]
            · by_cases hp : p
              · cases hfetch : fetchPage move.selectedLink with
                | error msg => simp [executeMove, hpage, hst, hct, hb, hfn, hlt, hp, hfetch]
                | ok np => simp [executeMove, hpage, hst, hct, hb, hfn, hlt, hp, hfetch]
              · cases hfetch : fetchPage move.selectedLink with
                | error msg => simp [executeMove, hpage, hst, hct, hb, hfn, hlt, hp, hfetch]
                | ok np => simp [executeMove, hpage, hst, hct, hb, hfn, hlt, hp, hfetch]
    · left; simp [executeMove, hpage, hst]

/-- C7: the history length never exceeds the step budget (`executeMove`
preserves the bound), and a run that reaches the budget while PLAYING, with
the current node not matching the target, transitions to FAILED with the
budget-exhausted message, with nothing appended and without invoking the
solver (the resulting state does not depend on `solverFn` or `fetchPage`). -/
theorem executeMove_budget
    (solverFn : WikiPage → String → List String → Except String AIResponse)
    (fetchPage : String → Except String WikiPage) (p pf : Bool) (t d : Nat) (s : AppState)
    (page : WikiPage)
    (hpage : s.currentWikiPage = some page)
    (hlen : s.history.length ≤ s.maxSteps) :
    (executeMove solverFn fetchPage p pf t d s).history.length ≤ s.maxSteps ∧
      (s.status = GameStatus.PLAYING →
        ¬ normalizeTitle page.title = normalizeTitle s.targetPage →
        s.maxSteps ≤ s.history.length →
        executeMove solverFn fetchPage p pf t d s =
          { s with status := GameStatus.FAILED,
                   error := some ("Maximum attempts reached without finding the target.") }) := by
  constructor
  · rcases executeMove_history_shape solverFn fetchPage p pf t d s with h | ⟨hlt, g, h⟩
    · rw [h]; exact hlen
    · rw [h]; simp only [List.length_append, List.length_cons, List.length_nil]; omega
  · intro hst hnt hge
    simp only [executeMove, hpage]
    rw [if_pos hst, if_neg hnt, if_pos hge]

/-- C7 witness: with the budget of 1 already consumed and the target not
reached, the step fails with the budget message and the history stays at the
bound. -/
theorem executeMove_budget_witness :
    (stateBudget.currentWikiPage = some pageAB ∧
        stateBudget.history.length ≤ stateBudget.maxSteps) ∧
      ((executeMove (solverTo ("B")) fetchStub false false 0 0 stateBudget).history.length ≤
          stateBudget.maxSteps ∧
        (stateBudget.status = GameStatus.PLAYING →
          ¬ normalizeTitle pageAB.title = normalizeTitle stateBudget.targetPage →
          stateBudget.maxSteps ≤ stateBudget.history.length →
          executeMove (solverTo ("B")) fetchStub false false 0 0 stateBudget =
            { stateBudget with
                status := GameStatus.FAILED,
                error := some ("Maximum attempts reached without finding the target.") })) :=
  ⟨⟨rfl, by decide⟩,
    executeMove_budget (solverTo ("B")) fetchStub false false 0 0 stateBudget pageAB rfl (by decide)⟩

/-- C8 counterexample: the claude solver, handed a malformed model response
whose `content` array is empty, does not degrade to the first-link fallback:
the `catch` at src/unnamed/part_001 line 198 dereferences
`message.content[0].text` again, so the `TypeError` thrown in the `try`
propagates raw out of the handler — it is never an `AIResponse`. -/
theorem claude_empty_content_cex :
    claudeHandleResponse [("B")] [] none =
        Except.error ("TypeError: Cannot read properties of undefined (reading 'text')") ∧
      ∀ r : AIResponse, claudeHandleResponse [("B")] [] none ≠ Except.ok r := by
  refine ⟨rfl, ?_⟩
  intro r h
  exact Except.noConfusion h

/-- C8 (amended): for the gemini and openai solvers, every unparsable or
malformed response (any throw inside the response-handling `try`, parse
outcome `none`) degrades to the first available outgoing link of the current
page with a rationale noting the parse failure, and the claude solver does the
same whenever the response's content array is non-empty; but a claude response
with an empty content array makes the `catch` itself throw (line 198
re-dereferences `message.content[0].text`), so that raw `TypeError`
propagates to the orchestrator instead of being absorbed. -/
theorem remote_parse_failure_fallback (links : List String) (l : String) (rest : List String)
    (h : links = l :: rest) (blocks : List String) (b0 : String) (brest : List String)
    (hb : blocks = b0 :: brest) :
    geminiHandleResponse links none =
        { reasoning := "Failed to parse AI response. Picking first link.", selectedLink := l } ∧
      openaiHandleResponse links none =
        { reasoning := "Failed to parse AI response. Picking first link.", selectedLink := l } ∧
      claudeHandleResponse links blocks none =
        Except.ok
          { reasoning := "Failed to parse AI response. Picking first link.",
            selectedLink := l } ∧
      claudeHandleResponse links [] none =
        Except.error ("TypeError: Cannot read properties of undefined (reading 'text')") := by
  subst h
  subst hb
  exact ⟨rfl, rfl, rfl, rfl⟩

/-- C8 witness: the handlers on the concrete link list ["B", "C"], with a
one-block claude content array for the fallback conjunct. -/
theorem remote_parse_failure_fallback_witness :
    (([("B"), ("C")] = ("B") :: [("C")]) ∧ ([("T")] = ("T") :: [])) ∧
      (geminiHandleResponse [("B"), ("C")] none =
          { reasoning := "Failed to parse AI response. Picking first link.",
            selectedLink := ("B") } ∧
        openaiHandleResponse [("B"), ("C")] none =
          { reasoning := "Failed to parse AI response. Picking first link.",
            selectedLink := ("B") } ∧
        claudeHandleResponse [("B"), ("C")] [("T")] none =
          Except.ok
            { reasoning := "Failed to parse AI response. Picking first link.",
              selectedLink := ("B") } ∧
        claudeHandleResponse [("B"), ("C")] [] none =
          Except.error ("TypeError: Cannot read properties of undefined (reading 'text')")) :=
  ⟨⟨rfl, rfl⟩,
    remote_parse_failure_fallback [("B"), ("C")] ("B") [("C")] rfl [("T")] ("T") [] rfl⟩
